import Mathlib

/-!
Shallow embedding of `sensu-airflow-check` (src/cmd/airflow-dag-check/main.go).

The program is a one-shot monitoring check: it resolves a working set of DAG
identifiers (either the explicit `--dag` list or all DAGs discovered from the
Airflow API), classifies each DAG into a sensu severity, and aggregates the
per-item results into one overall severity plus output lines.

HTTP calls are modelled by an environment `Env` that records, for each DAG id,
the response the Airflow service would give:
  - `getDag id` models `getDag` (main.go): the Go function returns either
    `(nil, err)` on any transport/decode failure or `(&dag, nil)` on success,
    so `Except String Dag` is a faithful model (the `dag == nil` test in
    `checkDags` is exactly the `Except.error` case).
  - `getLatestDagRun id` models `getLatestDagRun`: the Go function returns
    `(nil, err)` on failure, `(nil, nil)` when the run list is empty, and
    `(&run, nil)` otherwise, so `Except String (Option DagRun)` is faithful.
  - `getAllDags` models `getAllDags`, returning a decoded `DagList` or an
    error.
Sensu severity codes follow the sensu-plugin-sdk constants.
-/

/-- Sensu check state OK (exit code 0). -/
def checkStateOK : Nat := 0

/-- Sensu check state WARNING (exit code 1). -/
def checkStateWarning : Nat := 1

/-- Sensu check state CRITICAL (exit code 2). -/
def checkStateCritical : Nat := 2

/-- Sensu check state UNKNOWN (exit code 3). -/
def checkStateUnknown : Nat := 3

/-- Model of the Go struct `Dag` (fields `dag_id`, `is_paused`). -/
structure Dag where
  dagId : String
  isPaused : Bool
deriving DecidableEq, Repr

/-- Model of the Go struct `DagRun` (field `state`). -/
structure DagRun where
  state : String
deriving DecidableEq, Repr

/-- Model of the Go struct `DagList` (fields `dags`, `total_entries`).
`total_entries` is a count decoded from the API payload; it is modelled as a
`Nat`. Nothing forces it to equal `dags.length`. -/
structure DagList where
  dags : List Dag
  totalEntries : Nat
deriving DecidableEq, Repr

/-- Model of the Go struct `Health` (fields `DagId`, `Status`, `Error`).
`Error` is a nullable Go error, modelled as `Option String`. -/
structure Health where
  dagId : String
  status : Nat
  error : Option String
deriving DecidableEq, Repr

/-- Responses the Airflow API would give, one per endpoint used by the check.
This stands in for the `*http.Client` threaded through the Go code. -/
structure Env where
  getDag : String → Except String Dag
  getLatestDagRun : String → Except String (Option DagRun)
  getAllDags : Except String DagList

/-- The `else` branch of the per-DAG loop body in `checkDags` (main.go):
fetch the latest run; keep the fetch error (if any) as the diagnostic; if a
run exists and its state is "failed", override with CRITICAL. -/
def latestRunBranch (env : Env) (dagId : String) : Health :=
  match env.getLatestDagRun dagId with
  | .error e => { dagId := dagId, status := checkStateOK, error := some e }
  | .ok none => { dagId := dagId, status := checkStateOK, error := none }
  | .ok (some dagRun) =>
    if dagRun.state == "failed" then
      { dagId := dagId, status := checkStateCritical,
        error := some ("DAG failed its last execution: " ++ dagId) }
    else
      { dagId := dagId, status := checkStateOK, error := none }

/-- One iteration of the loop body of `checkDags` (main.go lines 178-212):
the classifier for a single DAG identifier. -/
def checkDag (env : Env) (explicit : Bool) (dagId : String) : Health :=
  match env.getDag dagId with
  | .error e =>
    { dagId := dagId, status := checkStateCritical,
      error := some ("could not retrieve dag: " ++ dagId ++ "\n" ++ e) }
  | .ok dag =>
    if explicit && dag.isPaused then
      { dagId := dagId, status := checkStateWarning,
        error := some ("DAG is paused and will not process: " ++ dagId) }
    else
      latestRunBranch env dagId

/-- Model of `checkDags` (main.go): sequential loop over the working set,
appending one `Health` per identifier in input order. -/
def checkDags : List String → Bool → Env → List Health
  | [], _, _ => []
  | dagId :: rest, explicit, env =>
    checkDag env explicit dagId :: checkDags rest explicit env

/-- Output lines the reporting loop in `executeCheck` prints for one result:
a "<id> SEVERITY" line for non-OK statuses, then an error detail line when a
diagnostic is present. -/
def reportLines (h : Health) : List String :=
  (if h.status == checkStateWarning then [h.dagId ++ " WARNING"]
   else if h.status == checkStateCritical then [h.dagId ++ " CRITICAL"]
   else if h.status == checkStateUnknown then [h.dagId ++ " UNKNOWN"]
   else []) ++
  (match h.error with
   | some e => ["Error occurred while checking DAG:\n" ++ e]
   | none => [])

/-- Count of results with a given status, as accumulated by the `switch` in
the reporting loop of `executeCheck`. -/
def countStatus (health : List Health) (s : Nat) : Nat :=
  health.countP (fun h => h.status == s)

/-- Model of the aggregation and reporting part of `executeCheck` (main.go
lines 130-169): per-item output lines in loop order, then the overall
severity decision (CRITICAL if any critical or unknown, else WARNING if any
warning, else OK with a final success / no-DAGs line). The Go code prints the
final line only on the OK path, having returned earlier otherwise. -/
def aggregate (health : List Health) : Nat × List String :=
  let lines := health.flatMap reportLines
  if countStatus health checkStateCritical > 0 ∨
      countStatus health checkStateUnknown > 0 then
    (checkStateCritical, lines)
  else if countStatus health checkStateWarning > 0 then
    (checkStateWarning, lines)
  else if health.isEmpty then
    (checkStateOK, lines ++ ["No DAGS loaded"])
  else
    (checkStateOK, lines ++ ["All health checks returning OK for loaded DAGs"])

/-- The fill loop `for i, d := range dagList.Dags { dags[i] = d.DagId }` in
`executeCheck`: writes each dag id at the running index into the accumulator.
A write at an index outside the slice bounds is a Go runtime panic, modelled
as `none`. -/
def fillDags : List String → Nat → List Dag → Option (List String)
  | acc, _, [] => some acc
  | acc, i, d :: rest =>
    if i < acc.length then fillDags (acc.set i d.dagId) (i + 1) rest
    else none

/-- Discovery-mode working-set construction in `executeCheck` (main.go lines
122-126): `dags := make([]string, dagList.TotalEntries)` followed by the fill
loop over `dagList.Dags`. -/
def buildDags (dl : DagList) : Option (List String) :=
  fillDags (List.replicate dl.totalEntries "") 0 dl.dags

/-- Observable outcome of one `executeCheck` invocation: the returned sensu
status, the fatal error (non-nil only on the resolution-failure path), and
the stdout lines. -/
structure CheckOutput where
  status : Nat
  fatalError : Option String
  lines : List String
deriving DecidableEq, Repr

/-- Assembly of the non-fatal `executeCheck` outcome from the per-item
results. -/
def reportOf (health : List Health) : CheckOutput :=
  { status := (aggregate health).1, fatalError := none,
    lines := (aggregate health).2 }

/-- Model of `executeCheck` (main.go lines 105-169): resolve the working set
(explicit `--dag` list, or discovery via `getAllDags`), classify, aggregate.
`none` models the runtime panic of an out-of-bounds write in the discovery
fill loop; the fatal discovery-failure path returns CRITICAL with the fatal
message and no per-item results or lines. -/
def executeCheck (pluginDags : List String) (env : Env) : Option CheckOutput :=
  if pluginDags.isEmpty then
    match env.getAllDags with
    | .error e =>
      some { status := checkStateCritical,
             fatalError := some ("could not retrieve DAGs: " ++ e),
             lines := [] }
    | .ok dagList =>
      match buildDags dagList with
      | none => none
      | some dags => some (reportOf (checkDags dags false env))
  else
    some (reportOf (checkDags pluginDags true env))

/-! Concrete environments used by witnesses and counterexamples. -/

/-- Environment whose DAGs are all paused and whose latest run succeeded. -/
def envPausedOkRun : Env :=
  { getDag := fun id => .ok { dagId := id, isPaused := true },
    getLatestDagRun := fun _ => .ok (some { state := "success" }),
    getAllDags := .error "unused" }

/-- Environment whose DAGs are all paused and whose latest run failed. -/
def envPausedFailedRun : Env :=
  { getDag := fun id => .ok { dagId := id, isPaused := true },
    getLatestDagRun := fun _ => .ok (some { state := "failed" }),
    getAllDags := .error "unused" }

/-- Environment whose DAGs are unpaused and have never run. -/
def envNeverRun : Env :=
  { getDag := fun id => .ok { dagId := id, isPaused := false },
    getLatestDagRun := fun _ => .ok none,
    getAllDags := .error "unused" }

/-- Environment where the descriptor fetch fails for every DAG. -/
def envDagFetchFails : Env :=
  { getDag := fun _ => .error "connection refused",
    getLatestDagRun := fun _ => .ok none,
    getAllDags := .error "unused" }

/-- Environment where the run fetch fails for every unpaused DAG. -/
def envRunFetchFails : Env :=
  { getDag := fun id => .ok { dagId := id, isPaused := false },
    getLatestDagRun := fun _ => .error "timeout",
    getAllDags := .error "unused" }

/-- Helper: the classifier always echoes the input identifier. -/
theorem checkDag_dagId (env : Env) (explicit : Bool) (dagId : String) :
    (checkDag env explicit dagId).dagId = dagId := by
  unfold checkDag
  split
  · rfl
  · split
    · rfl
    · unfold latestRunBranch
      split
      · rfl
      · rfl
      · split <;> rfl

/-- C1: for a DAG whose descriptor fetch succeeds with `isPaused = true`, the
classifier yields WARNING with the paused diagnostic when `explicit` is true,
and when `explicit` is false the paused check is skipped: the result is
exactly what the latest-run branch yields. -/
theorem checkDag_paused_asymmetry (env : Env) (dagId : String) (dag : Dag)
    (hfetch : env.getDag dagId = .ok dag) (hpaused : dag.isPaused = true) :
    checkDag env true dagId =
      { dagId := dagId, status := checkStateWarning,
        error := some ("DAG is paused and will not process: " ++ dagId) } ∧
    checkDag env false dagId = latestRunBranch env dagId := by
  constructor <;> simp [checkDag, hfetch, hpaused]

/-- Witness for C1 at a concrete paused DAG. -/
theorem checkDag_paused_asymmetry_witness :
    checkDag envPausedOkRun true "etl" =
      { dagId := "etl", status := checkStateWarning,
        error := some ("DAG is paused and will not process: " ++ "etl") } ∧
    checkDag envPausedOkRun false "etl" = latestRunBranch envPausedOkRun "etl" :=
  checkDag_paused_asymmetry envPausedOkRun "etl"
    { dagId := "etl", isPaused := true } rfl rfl

/-- C2 counterexample: a paused DAG requested explicitly whose latest run
state is "failed" classifies WARNING, not CRITICAL — the paused rule
short-circuits before the run fetch, so "regardless of pause state and
explicit flag" fails. -/
theorem checkDag_failed_run_not_always_critical :
    envPausedFailedRun.getLatestDagRun "etl" = .ok (some { state := "failed" }) ∧
    (checkDag envPausedFailedRun true "etl").status ≠ checkStateCritical ∧
    (checkDag envPausedFailedRun true "etl").status = checkStateWarning := by
  refine ⟨rfl, ?_, ?_⟩ <;> decide

/-- C2 (amended): for a DAG whose descriptor fetch succeeds, which is not
short-circuited by the paused rule (not both `explicit` and `isPaused`), and
whose latest run exists with state "failed", the classifier yields CRITICAL
with the failed-execution diagnostic, for either value of `explicit` and
either pause state. -/
theorem checkDag_failed_run_critical (env : Env) (explicit : Bool)
    (dagId : String) (dag : Dag) (dagRun : DagRun)
    (hfetch : env.getDag dagId = .ok dag)
    (hnopause : ¬(explicit = true ∧ dag.isPaused = true))
    (hrun : env.getLatestDagRun dagId = .ok (some dagRun))
    (hstate : dagRun.state = "failed") :
    checkDag env explicit dagId =
      { dagId := dagId, status := checkStateCritical,
        error := some ("DAG failed its last execution: " ++ dagId) } := by
  have hb : (explicit && dag.isPaused) = false := by
    cases explicit <;> cases hpp : dag.isPaused <;> simp_all
  simp [checkDag, hfetch, hb, latestRunBranch, hrun, hstate]

/-- Witness for the amended C2: an unpaused DAG (discovered mode) whose
latest run failed. -/
theorem checkDag_failed_run_critical_witness :
    checkDag envPausedFailedRun false "etl" =
      { dagId := "etl", status := checkStateCritical,
        error := some ("DAG failed its last execution: " ++ "etl") } :=
  checkDag_failed_run_critical envPausedFailedRun false "etl"
    { dagId := "etl", isPaused := true } { state := "failed" }
    rfl (by simp) rfl rfl

/-- C3: the classifier run produces exactly one result per input identifier,
in input order: same length, and mapping each result to its identifier gives
back the input list. -/
theorem checkDags_one_result_per_id (dags : List String) (explicit : Bool)
    (env : Env) :
    (checkDags dags explicit env).length = dags.length ∧
    (checkDags dags explicit env).map Health.dagId = dags := by
  induction dags with
  | nil => simp [checkDags]
  | cons d rest ih =>
    refine ⟨?_, ?_⟩ <;>
      simp [checkDags, ih.1, ih.2, checkDag_dagId]

/-- C5: for a DAG whose descriptor fetch succeeds and which is not
short-circuited by the paused rule, a failing latest-run fetch leaves the
severity at OK with the fetch error attached as the diagnostic. -/
theorem checkDag_run_fetch_error_ok (env : Env) (explicit : Bool)
    (dagId e : String) (dag : Dag)
    (hfetch : env.getDag dagId = .ok dag)
    (hnopause : ¬(explicit = true ∧ dag.isPaused = true))
    (hrun : env.getLatestDagRun dagId = .error e) :
    checkDag env explicit dagId =
      { dagId := dagId, status := checkStateOK, error := some e } := by
  have hb : (explicit && dag.isPaused) = false := by
    cases explicit <;> cases hpp : dag.isPaused <;> simp_all
  simp [checkDag, hfetch, hb, latestRunBranch, hrun]

/-- Witness for C5: an unpaused DAG whose run fetch times out. -/
theorem checkDag_run_fetch_error_ok_witness :
    checkDag envRunFetchFails true "etl" =
      { dagId := "etl", status := checkStateOK, error := some "timeout" } :=
  checkDag_run_fetch_error_ok envRunFetchFails true "etl" "timeout"
    { dagId := "etl", isPaused := false } rfl (by simp) rfl

/-- C6: for a DAG whose descriptor fetch fails, the classifier yields
CRITICAL with the could-not-retrieve diagnostic including the underlying
error, and the result does not depend on the latest-run responses (no
further rule is evaluated). -/
theorem checkDag_fetch_error_critical (env : Env) (explicit : Bool)
    (dagId e : String) (hfetch : env.getDag dagId = .error e) :
    checkDag env explicit dagId =
      { dagId := dagId, status := checkStateCritical,
        error := some ("could not retrieve dag: " ++ dagId ++ "\n" ++ e) } ∧
    ∀ runs, checkDag { env with getLatestDagRun := runs } explicit dagId =
      checkDag env explicit dagId := by
  constructor
  · simp [checkDag, hfetch]
  · intro runs
    simp [checkDag, hfetch]

/-- Witness for C6 at a concrete unreachable DAG. -/
theorem checkDag_fetch_error_critical_witness :
    checkDag envDagFetchFails true "etl" =
      { dagId := "etl", status := checkStateCritical,
        error := some ("could not retrieve dag: " ++ "etl" ++ "\n" ++
          "connection refused") } ∧
    ∀ runs, checkDag { envDagFetchFails with getLatestDagRun := runs } true
      "etl" = checkDag envDagFetchFails true "etl" :=
  checkDag_fetch_error_critical envDagFetchFails true "etl"
    "connection refused" rfl

/-- C9: an unpaused DAG that has never run (run fetch succeeds with no
record) classifies OK with no diagnostic, for both values of `explicit`. -/
theorem checkDag_never_run_ok (env : Env) (explicit : Bool) (dagId : String)
    (dag : Dag) (hfetch : env.getDag dagId = .ok dag)
    (hnp : dag.isPaused = false)
    (hrun : env.getLatestDagRun dagId = .ok none) :
    checkDag env explicit dagId =
      { dagId := dagId, status := checkStateOK, error := none } := by
  simp [checkDag, hfetch, hnp, latestRunBranch, hrun]

/-- Witness for C9 at a concrete never-run DAG, explicit mode. -/
theorem checkDag_never_run_ok_witness :
    checkDag envNeverRun true "etl" =
      { dagId := "etl", status := checkStateOK, error := none } :=
  checkDag_never_run_ok envNeverRun true "etl"
    { dagId := "etl", isPaused := false } rfl rfl rfl

/-- Severity rank in the spec ordering OK < WARNING < CRITICAL with UNKNOWN
treated at the CRITICAL level. -/
def sevRank (s : Nat) : Nat :=
  if s = checkStateCritical ∨ s = checkStateUnknown then 2
  else if s = checkStateWarning then 1
  else 0

/-- Helper: severity ranks never exceed 2. -/
theorem sevRank_le_two (s : Nat) : sevRank s ≤ 2 := by
  unfold sevRank
  split_ifs <;> omega

/-- Helper: a member of a list of naturals is bounded by its max fold. -/
theorem mem_le_foldr_max (l : List Nat) (a : Nat) (ha : a ∈ l) :
    a ≤ l.foldr max 0 := by
  induction l with
  | nil => cases ha
  | cons b t ih =>
    rcases List.mem_cons.mp ha with rfl | h
    · exact le_max_left _ _
    · exact le_trans (ih h) (le_max_right _ _)

/-- Helper: the max fold of a list of naturals is bounded by any common
upper bound of its members. -/
theorem foldr_max_le (l : List Nat) (b : Nat) (hb : ∀ a ∈ l, a ≤ b) :
    l.foldr max 0 ≤ b := by
  induction l with
  | nil => simp
  | cons a t ih =>
    simp only [List.foldr_cons]
    exact max_le (hb a (List.mem_cons_self a t))
      (ih fun x hx => hb x (List.mem_cons_of_mem a hx))

/-- Helper: the severity component of `aggregate` as an if-chain over the
status counts. -/
theorem aggregate_fst (health : List Health) :
    (aggregate health).1 =
      if countStatus health checkStateCritical > 0 ∨
          countStatus health checkStateUnknown > 0 then checkStateCritical
      else if countStatus health checkStateWarning > 0 then checkStateWarning
      else checkStateOK := by
  simp only [aggregate]
  split_ifs <;> rfl

/-- Helper: a positive status count is exactly a member with that status. -/
theorem countStatus_pos (health : List Health) (s : Nat) :
    0 < countStatus health s ↔ ∃ h ∈ health, h.status = s := by
  simp [countStatus]

/-- C4: the overall severity of aggregation is the maximum severity of the
results under OK < WARNING < CRITICAL with UNKNOWN at the CRITICAL level:
it ranks as the max of the individual ranks, and equals CRITICAL when some
result is CRITICAL or UNKNOWN, else WARNING when some result is WARNING,
else OK. -/
theorem aggregate_overall_is_max (health : List Health) :
    sevRank (aggregate health).1 =
      (health.map (fun h => sevRank h.status)).foldr max 0 ∧
    (aggregate health).1 =
      (if ∃ h ∈ health, h.status = checkStateCritical ∨
          h.status = checkStateUnknown then checkStateCritical
       else if ∃ h ∈ health, h.status = checkStateWarning then
         checkStateWarning
       else checkStateOK) := by
  rw [aggregate_fst]
  by_cases h2 : countStatus health checkStateCritical > 0 ∨
      countStatus health checkStateUnknown > 0
  · have hex : ∃ h ∈ health, h.status = checkStateCritical ∨
        h.status = checkStateUnknown := by
      rcases h2 with h2 | h2
      · obtain ⟨x, hx, hs⟩ := (countStatus_pos health _).mp h2
        exact ⟨x, hx, Or.inl hs⟩
      · obtain ⟨x, hx, hs⟩ := (countStatus_pos health _).mp h2
        exact ⟨x, hx, Or.inr hs⟩
    rw [if_pos h2, if_pos hex]
    refine ⟨?_, rfl⟩
    obtain ⟨x, hx, hs⟩ := hex
    have hx2 : sevRank x.status = 2 := by
      unfold sevRank
      rw [if_pos hs]
    have hmem : sevRank x.status ∈ health.map (fun h => sevRank h.status) :=
      List.mem_map_of_mem _ hx
    have hle := mem_le_foldr_max _ _ hmem
    have hge : (health.map (fun h => sevRank h.status)).foldr max 0 ≤ 2 := by
      refine foldr_max_le _ _ ?_
      intro a ha
      obtain ⟨y, _, rfl⟩ := List.mem_map.mp ha
      exact sevRank_le_two _
    have hcrit : sevRank checkStateCritical = 2 := by decide
    omega
  · have hnc : ∀ x ∈ health, x.status ≠ checkStateCritical := by
      intro x hx heq
      exact h2 (Or.inl ((countStatus_pos health _).mpr ⟨x, hx, heq⟩))
    have hnu : ∀ x ∈ health, x.status ≠ checkStateUnknown := by
      intro x hx heq
      exact h2 (Or.inr ((countStatus_pos health _).mpr ⟨x, hx, heq⟩))
    have hexneg : ¬∃ h ∈ health, h.status = checkStateCritical ∨
        h.status = checkStateUnknown := by
      rintro ⟨x, hx, hs | hs⟩
      · exact hnc x hx hs
      · exact hnu x hx hs
    rw [if_neg h2, if_neg hexneg]
    by_cases h1 : countStatus health checkStateWarning > 0
    · rw [if_pos h1, if_pos ((countStatus_pos health _).mp h1)]
      refine ⟨?_, rfl⟩
      obtain ⟨x, hx, hs⟩ := (countStatus_pos health _).mp h1
      have hx1 : sevRank x.status = 1 := by
        rw [hs]
        decide
      have hmem : sevRank x.status ∈ health.map (fun h => sevRank h.status) :=
        List.mem_map_of_mem _ hx
      have hle := mem_le_foldr_max _ _ hmem
      have hge : (health.map (fun h => sevRank h.status)).foldr max 0 ≤ 1 := by
        refine foldr_max_le _ _ ?_
        intro a ha
        obtain ⟨y, hy, rfl⟩ := List.mem_map.mp ha
        unfold sevRank
        split_ifs with hA hB
        · rcases hA with hA | hA
          · exact absurd hA (hnc y hy)
          · exact absurd hA (hnu y hy)
        · omega
        · omega
      have hwr : sevRank checkStateWarning = 1 := by decide
      omega
    · rw [if_neg h1,
        if_neg (fun hx => h1 ((countStatus_pos health _).mpr hx))]
      refine ⟨?_, rfl⟩
      have hnw : ∀ x ∈ health, x.status ≠ checkStateWarning := by
        intro x hx heq
        exact h1 ((countStatus_pos health _).mpr ⟨x, hx, heq⟩)
      have hge : (health.map (fun h => sevRank h.status)).foldr max 0 ≤ 0 := by
        refine foldr_max_le _ _ ?_
        intro a ha
        obtain ⟨y, hy, rfl⟩ := List.mem_map.mp ha
        unfold sevRank
        split_ifs with hA hB
        · rcases hA with hA | hA
          · exact absurd hA (hnc y hy)
          · exact absurd hA (hnu y hy)
        · exact absurd hB (hnw y hy)
        · omega
      have hok : sevRank checkStateOK = 0 := by decide
      omega

/-- Health result of a healthy DAG named "etl". -/
def okHealthEtl : Health :=
  { dagId := "etl", status := checkStateOK, error := none }

/-- Listing payload with no dags and total count zero. -/
def emptyDagList : DagList := { dags := [], totalEntries := 0 }

/-- Environment whose listing succeeds with an empty dag list. -/
def envDiscoveryEmpty : Env :=
  { getDag := fun id => .ok { dagId := id, isPaused := false },
    getLatestDagRun := fun _ => .ok none,
    getAllDags := .ok emptyDagList }

/-- C8: an empty result list (empty resolved working set) aggregates to OK
with exactly the "No DAGS loaded" line and never the success line; a
non-empty all-OK result list aggregates to OK with the success line emitted
after the per-item detail lines. -/
theorem aggregate_empty_and_success (health : List Health) :
    aggregate [] = (checkStateOK, ["No DAGS loaded"]) ∧
    "All health checks returning OK for loaded DAGs" ∉
      (aggregate ([] : List Health)).2 ∧
    (∀ env : Env, ∀ dl, env.getAllDags = .ok dl → buildDags dl = some [] →
      executeCheck [] env =
        some { status := checkStateOK, fatalError := none,
               lines := ["No DAGS loaded"] }) ∧
    (health ≠ [] → (∀ h ∈ health, h.status = checkStateOK) →
      (aggregate health).1 = checkStateOK ∧
      (aggregate health).2 =
        health.flatMap reportLines ++
          ["All health checks returning OK for loaded DAGs"]) := by
  refine ⟨by decide, by decide, ?_, ?_⟩
  case _ =>
    intro env dl hok hbuild
    simp only [executeCheck, List.isEmpty_nil, if_true, hok, hbuild]
    rfl
  intro hne hall
  have hz : ∀ s, s ≠ checkStateOK → countStatus health s = 0 := by
    intro s hs
    apply List.countP_eq_zero.mpr
    intro a ha
    simp only [beq_iff_eq]
    rw [hall a ha]
    exact fun h => hs h.symm
  have hcz := hz checkStateCritical (by decide)
  have huz := hz checkStateUnknown (by decide)
  have hwz := hz checkStateWarning (by decide)
  have hagg : aggregate health =
      (checkStateOK, health.flatMap reportLines ++
        ["All health checks returning OK for loaded DAGs"]) := by
    simp only [aggregate]
    rw [if_neg (by omega), if_neg (by omega),
      if_neg (by simp [List.isEmpty_iff, hne])]
  rw [hagg]
  exact ⟨rfl, rfl⟩

/-- Witness for C8 at a singleton all-OK result list. -/
theorem aggregate_empty_and_success_witness :
    ((aggregate [okHealthEtl]).1 = checkStateOK ∧
     (aggregate [okHealthEtl]).2 =
      [okHealthEtl].flatMap reportLines ++
        ["All health checks returning OK for loaded DAGs"]) ∧
    executeCheck [] envDiscoveryEmpty =
      some { status := checkStateOK, fatalError := none,
             lines := ["No DAGS loaded"] } :=
  ⟨(aggregate_empty_and_success [okHealthEtl]).2.2.2
    (by simp)
    (by
      intro h hm
      rw [List.mem_singleton.mp hm]
      rfl),
   (aggregate_empty_and_success []).2.2.1 envDiscoveryEmpty
     emptyDagList rfl rfl⟩

/-- Helper: the per-DAG classifier never reads the listing endpoint. -/
theorem checkDag_getAllDags_irrel (env : Env) (g : Except String DagList)
    (explicit : Bool) (dagId : String) :
    checkDag { env with getAllDags := g } explicit dagId =
      checkDag env explicit dagId := rfl

/-- Helper: the classifier loop never reads the listing endpoint. -/
theorem checkDags_getAllDags_irrel (dags : List String) (explicit : Bool)
    (env : Env) (g : Except String DagList) :
    checkDags dags explicit { env with getAllDags := g } =
      checkDags dags explicit env := by
  induction dags with
  | nil => rfl
  | cons d rest ih =>
    simp only [checkDags, ih, checkDag_getAllDags_irrel]

/-- C7: resolution of the working set. A non-empty explicit list is used
verbatim with the explicit flag true and the outcome is independent of the
listing endpoint (no listing call is made); an empty list resolves through
discovery with the explicit flag false; a failing listing aborts with
CRITICAL, the fatal message, and no per-item lines or results. -/
theorem executeCheck_resolution (pluginDags : List String) (env : Env) :
    (pluginDags ≠ [] →
      executeCheck pluginDags env =
        some (reportOf (checkDags pluginDags true env)) ∧
      ∀ g, executeCheck pluginDags { env with getAllDags := g } =
        executeCheck pluginDags env) ∧
    (pluginDags = [] → ∀ dl, env.getAllDags = .ok dl →
      executeCheck pluginDags env =
        (buildDags dl).map (fun dags => reportOf (checkDags dags false env))) ∧
    (pluginDags = [] → ∀ e, env.getAllDags = .error e →
      executeCheck pluginDags env =
        some { status := checkStateCritical,
               fatalError := some ("could not retrieve DAGs: " ++ e),
               lines := [] }) := by
  refine ⟨?_, ?_, ?_⟩
  · intro hne
    have hemp : pluginDags.isEmpty = false := by
      simp [List.isEmpty_iff, hne]
    constructor
    · simp [executeCheck, hemp]
    · intro g
      simp [executeCheck, hemp, checkDags_getAllDags_irrel]
  · rintro rfl dl hok
    simp only [executeCheck, List.isEmpty_nil, if_pos rfl, hok]
    cases buildDags dl with
    | none => rfl
    | some dags => rfl
  · rintro rfl e herr
    simp [executeCheck, herr]

/-- Listing payload with a single DAG and a matching total count. -/
def dagListSingleA : DagList :=
  { dags := [{ dagId := "a", isPaused := false }], totalEntries := 1 }

/-- Environment whose listing succeeds with a single unpaused, never-run
DAG and a matching total count. -/
def envDiscoveryOk : Env :=
  { getDag := fun id => .ok { dagId := id, isPaused := false },
    getLatestDagRun := fun _ => .ok none,
    getAllDags := .ok dagListSingleA }

/-- Witness for C7 covering all three resolution branches at concrete
inputs. -/
theorem executeCheck_resolution_witness :
    (executeCheck ["etl"] envNeverRun =
      some (reportOf (checkDags ["etl"] true envNeverRun)) ∧
     ∀ g, executeCheck ["etl"] { envNeverRun with getAllDags := g } =
       executeCheck ["etl"] envNeverRun) ∧
    executeCheck [] envDiscoveryOk =
      (buildDags dagListSingleA).map
        (fun dags => reportOf (checkDags dags false envDiscoveryOk)) ∧
    executeCheck [] envNeverRun =
      some { status := checkStateCritical,
             fatalError := some ("could not retrieve DAGs: " ++ "unused"),
             lines := [] } :=
  ⟨(executeCheck_resolution ["etl"] envNeverRun).1 (by simp),
   (executeCheck_resolution [] envDiscoveryOk).2.1 rfl dagListSingleA rfl,
   (executeCheck_resolution [] envNeverRun).2.2 rfl "unused" rfl⟩

/-- Helper: behaviour of the fill loop when the accumulator is split as
`pre ++ suf` with the running index at `pre.length`: the loop writes the dag
ids over the prefix of `suf` and panics exactly when `suf` is too short. -/
theorem fillDags_append (ds : List Dag) (pre suf : List String) :
    fillDags (pre ++ suf) pre.length ds =
      if ds.length ≤ suf.length then
        some (pre ++ ds.map Dag.dagId ++ suf.drop ds.length)
      else none := by
  induction ds generalizing pre suf with
  | nil => simp [fillDags]
  | cons d rest ih =>
    cases suf with
    | nil =>
      simp [fillDags]
    | cons s suf =>
      have hacc : (pre ++ s :: suf).set pre.length d.dagId =
          pre ++ [d.dagId] ++ suf := by
        rw [List.set_append_right _ _ (le_refl _), Nat.sub_self,
          List.set_cons_zero, List.append_cons]
      have hlen : (pre ++ [d.dagId]).length = pre.length + 1 := by simp
      have hstep : fillDags (pre ++ s :: suf) pre.length (d :: rest) =
          fillDags (pre ++ [d.dagId] ++ suf) (pre ++ [d.dagId]).length
            rest := by
        simp only [fillDags]
        rw [if_pos (by simp), hacc, hlen]
      rw [hstep, ih]
      by_cases hle : rest.length ≤ suf.length
      · rw [if_pos hle, if_pos (by simpa using hle)]
        simp
      · rw [if_neg hle, if_neg (by simpa using hle)]

/-- C10: the discovery working-set construction allocates `total_entries`
slots and fills them from the listed dags: equal counts give exactly the
listed ids; a larger `total_entries` leaves trailing empty-string
identifiers; a smaller one makes the fill loop index out of bounds (a Go
runtime panic, modelled as `none`). -/
theorem buildDags_total_entries (dl : DagList) :
    (dl.totalEntries = dl.dags.length →
      buildDags dl = some (dl.dags.map Dag.dagId)) ∧
    (dl.dags.length < dl.totalEntries →
      buildDags dl = some (dl.dags.map Dag.dagId ++
        List.replicate (dl.totalEntries - dl.dags.length) "")) ∧
    (dl.totalEntries < dl.dags.length → buildDags dl = none) := by
  have key := fillDags_append dl.dags [] (List.replicate dl.totalEntries "")
  simp only [List.nil_append, List.length_nil, List.length_replicate,
    List.drop_replicate] at key
  refine ⟨?_, ?_, ?_⟩
  · intro heq
    unfold buildDags
    rw [key, if_pos (by omega)]
    simp [heq]
  · intro hlt
    unfold buildDags
    rw [key, if_pos (by omega)]
  · intro hlt
    unfold buildDags
    rw [key, if_neg (by omega)]

/-- Listing payload whose total count 3 exceeds its single listed dag. -/
def dagListOverCount : DagList :=
  { dags := [{ dagId := "a", isPaused := false }], totalEntries := 3 }

/-- Listing payload whose total count 0 is below its single listed dag. -/
def dagListUnderCount : DagList :=
  { dags := [{ dagId := "a", isPaused := false }], totalEntries := 0 }

/-- Witness for C10: a one-dag listing with total counts 1, 3 and 0. -/
theorem buildDags_total_entries_witness :
    buildDags dagListSingleA =
      some (dagListSingleA.dags.map Dag.dagId) ∧
    buildDags dagListOverCount =
      some (dagListOverCount.dags.map Dag.dagId ++
        List.replicate (dagListOverCount.totalEntries -
          dagListOverCount.dags.length) "") ∧
    buildDags dagListUnderCount = none :=
  ⟨(buildDags_total_entries dagListSingleA).1 rfl,
   (buildDags_total_entries dagListOverCount).2.1 (by decide),
   (buildDags_total_entries dagListUnderCount).2.2 (by decide)⟩
